import Mathlib

/-!
# Verification of the halo-node-sdk 402 payment-recovery middleware

A shallow embedding of `src/index.ts` of the `AGIHALO/halo-node-sdk`
repository.  JavaScript values that flow through the SDK are modelled by the
inductive `JVal` (an absent property / `undefined` is `Option.none`);
JavaScript truthiness, the `||` operator, optional chaining, `BigInt`
conversion, `String.prototype.includes`, base64 (`Buffer`), `JSON.stringify`
and `ethers.hexlify` are each given executable models.  External primitives
(the `fetch` transport, `JSON.parse`, the elliptic-curve signature and the
random-byte source) are parameters of the functions that use them, exactly at
the points the source calls out to them.

The stateful recovery flow (the proxy handler of `haloSystem` and
`HaloAutoHandler.autoRecover`) is embedded as a pure function that returns
both the list of externally observable actions it performed (judge
consultation, signing call, retry request, diagnostic dump) and its outcome
(`Except` of the error it throws or the value it returns).
-/

namespace Halo

/-! ## JavaScript value model -/

/-- A JavaScript value as it appears in the data flow of the SDK.  `obj` carries
its fields in insertion order; numbers are modelled as integers (every number
the SDK manipulates is integral). -/
inductive JVal where
  | str : String → JVal
  | num : Int → JVal
  | obj : List (String × JVal) → JVal
  | arr : List JVal → JVal
  | jnull : JVal

/-- First field with the given key, JS property lookup on a plain object. -/
def lookupField : List (String × JVal) → String → Option JVal
  | [], _ => none
  | (k, v) :: t, key => if k == key then some v else lookupField t key

/-- `v.key` for a non-nullish `v`: objects look the key up, other values have
none of the property names the SDK reads (`undefined`). -/
def getField (v : JVal) (key : String) : Option JVal :=
  match v with
  | .obj fs => lookupField fs key
  | _ => none

/-- `v?.key`: optional chaining through a possibly-`undefined`/`null` value. -/
def optField (v : Option JVal) (key : String) : Option JVal :=
  match v with
  | none => none
  | some .jnull => none
  | some x => getField x key

/-- `v[0]` for non-nullish `v`: array head, object property `"0"`, first
character of a string, `undefined` otherwise. -/
def jsIdx0 (v : JVal) : Option JVal :=
  match v with
  | .arr l => l.head?
  | .obj fs => lookupField fs "0"
  | .str s => match s.data with
    | [] => none
    | c :: _ => some (.str (String.mk [c]))
  | _ => none

/-- `v?.[0]` optional chaining. -/
def optIdx0 (v : Option JVal) : Option JVal :=
  match v with
  | none => none
  | some .jnull => none
  | some x => jsIdx0 x

/-- JavaScript truthiness of a value. -/
def jsTruthy : JVal → Bool
  | .str s => s ≠ ""
  | .num n => n ≠ 0
  | .obj _ => true
  | .arr _ => true
  | .jnull => false

/-- Truthiness of a possibly-`undefined` value. -/
def jsTruthyO : Option JVal → Bool
  | none => false
  | some v => jsTruthy v

/-- JavaScript `a || b` on possibly-`undefined` values. -/
def jsOr (a b : Option JVal) : Option JVal :=
  if jsTruthyO a then a else b

/-- JavaScript `a || d` where the default `d` is a present value. -/
def jsOrV (a : Option JVal) (d : JVal) : JVal :=
  match a with
  | some v => if jsTruthy v then v else d
  | none => d

/-- `a || b` on possibly-`undefined` strings (`""` is falsy). -/
def jsOrStr (a b : Option String) : Option String :=
  match a with
  | some s => if s ≠ "" then some s else b
  | none => b

/-- Truthiness of a possibly-`undefined` string. -/
def strTruthy : Option String → Bool
  | none => false
  | some s => s ≠ ""

/-! ## String helpers (models of the JS string methods the SDK uses) -/

/-- Does the character list start with the pattern (first argument)? -/
def charsPre : List Char → List Char → Bool
  | [], _ => true
  | _ :: _, [] => false
  | a :: as, b :: bs => a == b && charsPre as bs

/-- Does the character list contain the pattern as a contiguous run? -/
def charsHas : List Char → List Char → Bool
  | [], nd => nd.isEmpty
  | h :: t, nd => charsPre nd (h :: t) || charsHas t nd

/-- `s.includes(sub)`. -/
def strHas (s sub : String) : Bool := charsHas s.data sub.data

/-- ASCII upper-casing of one character, as `toUpperCase` acts on the ASCII
range (the SDK only ever upper-cases ASCII judge replies). -/
def upChar (c : Char) : Char :=
  if 97 ≤ c.toNat && c.toNat ≤ 122 then Char.ofNat (c.toNat - 32) else c

/-- `s.toUpperCase()` on the ASCII range. -/
def jsUpper (s : String) : String := String.mk (s.data.map upChar)

/-- The whitespace characters `trim` strips (ASCII fragment). -/
def wsChar (c : Char) : Bool :=
  c == ' ' || c == '\t' || c == '\n' || c == '\x0d' || c == '\x0b' || c == '\x0c'

/-- `s.trim()`. -/
def jsTrim (s : String) : String :=
  String.mk (((s.data.dropWhile wsChar).reverse.dropWhile wsChar).reverse)

/-! ## The error shapes the interceptor inspects -/

/-- The slice of the `response` object of a caught failure that the SDK reads:
its `status` property and the `payment-required` header.  The source reads
the header through either the `get` accessor of `headers` or a plain index
lookup, both under the key `payment-required`; both shapes surface here as the one logical
header value, `none` when neither yields it. -/
structure JsResp where
  status : Option JVal
  headerPR : Option String

/-- The slice of a caught failure that the SDK reads: `error.response`,
`error.status`, `error.message` and `error.errorDetails`. -/
structure JsErr where
  response : Option JsResp
  status : Option JVal
  message : Option String
  errorDetails : Option JVal

/-- `error.response?.status || error.status || 0` — the status value the
interceptor compares against 402. -/
def statusOf (e : JsErr) : JVal :=
  jsOrV (jsOr (match e.response with | some r => r.status | none => none) e.status) (.num 0)

/-- Strict equality against the number literal 402 (`status === 402`). -/
def is402 : JVal → Bool
  | .num n => n == 402
  | _ => false

/-- `error.message?.includes(sub)` (undefined message is falsy). -/
def msgHas (e : JsErr) (sub : String) : Bool :=
  match e.message with
  | none => false
  | some m => strHas m sub

/-- The 402 classification of the interceptor:
`status === 402 || error.message?.includes("402") || error.message?.includes("Payment Required")`. -/
def isPaymentRequired (e : JsErr) : Bool :=
  is402 (statusOf e) || msgHas e "402" || msgHas e "Payment Required"

/-- The classification the specification describes: either status field
equals 402 (no masking), or the message carries a 402 indicator.  Stated for
comparison with `isPaymentRequired`, the classification the code performs. -/
def is402opt : Option JVal → Bool
  | some v => is402 v
  | none => false

def specClaimedPR (e : JsErr) : Bool :=
  is402opt (match e.response with | some r => r.status | none => none)
    || is402opt e.status || msgHas e "402" || msgHas e "Payment Required"

/-! ## Base64 (`Buffer` base64 decoding and encoding) -/

/-- The base64 alphabet, sextet to character. -/
def b64Char (n : Nat) : Char :=
  if n < 26 then Char.ofNat (65 + n)
  else if n < 52 then Char.ofNat (97 + (n - 26))
  else if n < 62 then Char.ofNat (48 + (n - 52))
  else if n = 62 then '+'
  else '/'

/-- Character back to sextet (only meaningful on the alphabet). -/
def b64Val (c : Char) : Nat :=
  let n := c.toNat
  if 65 ≤ n && n ≤ 90 then n - 65
  else if 97 ≤ n && n ≤ 122 then n - 71
  else if 48 ≤ n && n ≤ 57 then n + 4
  else if c = '+' then 62
  else 63

/-- Membership in the base64 alphabet (the Node decoder skips everything
else, `=` padding included). -/
def isB64 (c : Char) : Bool :=
  (65 ≤ c.toNat && c.toNat ≤ 90) || (97 ≤ c.toNat && c.toNat ≤ 122)
    || (48 ≤ c.toNat && c.toNat ≤ 57) || c == '+' || c == '/'

/-- Base64 encoding of a byte list, with `=` padding, as
the Node `Buffer` base64 encoder produces it. -/
def b64e : List Nat → List Char
  | [] => []
  | [b1] => [b64Char (b1 / 4), b64Char (b1 % 4 * 16), '=', '=']
  | [b1, b2] => [b64Char (b1 / 4), b64Char (b1 % 4 * 16 + b2 / 16), b64Char (b2 % 16 * 4), '=']
  | b1 :: b2 :: b3 :: rest =>
      b64Char (b1 / 4) :: b64Char (b1 % 4 * 16 + b2 / 16)
        :: b64Char (b2 % 16 * 4 + b3 / 64) :: b64Char (b3 % 64) :: b64e rest

/-- Reassemble bytes from a sextet list (groups of 4, then a 2- or 3-sextet
tail; a lone trailing sextet is dropped, as Node drops it). -/
def b64dAux : List Nat → List Nat
  | s1 :: s2 :: s3 :: s4 :: rest =>
      (s1 * 4 + s2 / 16) :: (s2 % 16 * 16 + s3 / 4) :: (s3 % 4 * 64 + s4) :: b64dAux rest
  | [s1, s2] => [s1 * 4 + s2 / 16]
  | [s1, s2, s3] => [s1 * 4 + s2 / 16, s2 % 16 * 16 + s3 / 4]
  | _ => []

/-- Base64 decoding of a character list (lenient: non-alphabet characters,
padding included, are skipped), as the Node `Buffer` base64 decoder does. -/
def b64dChars (cs : List Char) : List Nat :=
  b64dAux ((cs.filter (fun c => isB64 c)).map b64Val)

/-- Base64-decode then view the bytes as
text.  Bytes are mapped to code points directly, which is exact for the
ASCII payloads the payment-terms header carries. -/
def b64decodeStr (s : String) : String :=
  String.mk ((b64dChars s.data).map Char.ofNat)

/-- The bytes of the text, base64 encoded
(code points as bytes, exact for ASCII payloads). -/
def b64encodeStr (s : String) : String :=
  String.mk (b64e (s.data.map Char.toNat))

/-! ## Hex (`ethers.hexlify`) -/

/-- Lower-case hex digit. -/
def hexDigit (n : Nat) : Char :=
  if n < 10 then Char.ofNat (48 + n) else Char.ofNat (87 + n)

/-- Two hex digits of one byte. -/
def byteHex (b : Nat) : List Char := [hexDigit (b / 16), hexDigit (b % 16)]

/-- Hex digits of a byte list. -/
def hexChars : List Nat → List Char
  | [] => []
  | b :: t => byteHex b ++ hexChars t

/-- `ethers.hexlify(bytes)`: `0x` followed by two lower-case hex digits per
byte. -/
def hexlifyStr (l : List Nat) : String :=
  String.mk ('0' :: 'x' :: hexChars l)

/-! ## `JSON.stringify` -/

/-- JSON escaping of one character. -/
def escChar (c : Char) : List Char :=
  if c = '"' then ['\\', '"']
  else if c = '\\' then ['\\', '\\']
  else if c = '\n' then ['\\', 'n']
  else if c = '\x0d' then ['\\', 'r']
  else if c = '\t' then ['\\', 't']
  else if c = '\x08' then ['\\', 'b']
  else if c = '\x0c' then ['\\', 'f']
  else if c.toNat < 32 then ['\\', 'u', '0', '0', hexDigit (c.toNat / 16), hexDigit (c.toNat % 16)]
  else [c]

/-- JSON escaping of a character list. -/
def escList : List Char → List Char
  | [] => []
  | c :: t => escChar c ++ escList t

mutual

/-- `JSON.stringify` of a value, as a character list. -/
def jstrChars : JVal → List Char
  | .str s => '"' :: escList s.data ++ ['"']
  | .num n => (toString n).data
  | .jnull => ['n', 'u', 'l', 'l']
  | .arr l => '[' :: jstrArr l ++ [']']
  | .obj fs => '\x7b' :: jstrObj fs ++ ['\x7d']

/-- Comma-joined serialization of array elements. -/
def jstrArr : List JVal → List Char
  | [] => []
  | [v] => jstrChars v
  | v :: w :: t => jstrChars v ++ ',' :: jstrArr (w :: t)

/-- Comma-joined serialization of object fields. -/
def jstrObj : List (String × JVal) → List Char
  | [] => []
  | [(k, v)] => '"' :: escList k.data ++ '"' :: ':' :: jstrChars v
  | (k, v) :: w :: t =>
      ('"' :: escList k.data ++ '"' :: ':' :: jstrChars v) ++ ',' :: jstrObj (w :: t)

end

/-- `JSON.stringify` as a string. -/
def jstringify (v : JVal) : String := String.mk (jstrChars v)

/-! ## `BigInt(...)` conversion -/

/-- Is every character a decimal digit? -/
def allDigits : List Char → Bool
  | [] => true
  | c :: t => (48 ≤ c.toNat && c.toNat ≤ 57) && allDigits t

/-- Value of a decimal digit list (most significant first). -/
def digitsVal : List Char → Nat → Nat
  | [], acc => acc
  | c :: t, acc => digitsVal t (acc * 10 + (c.toNat - 48))

/-- `BigInt(s)` on a string: trims, accepts the empty string as 0, an
optional sign followed by decimal digits, and throws (`none`) otherwise.
The radix forms (`0x…`, `0o…`, `0b…`) the full grammar also
accepts never arise in the inputs of the SDK and are modelled as failing. -/
def parseBigIntStr (s : String) : Option Int :=
  match (jsTrim s).data with
  | [] => some 0
  | '-' :: t => if t ≠ [] && allDigits t then some (-(digitsVal t 0 : Int)) else none
  | '+' :: t => if t ≠ [] && allDigits t then some (digitsVal t 0 : Int) else none
  | l => if allDigits l then some (digitsVal l 0 : Int) else none

/-- `BigInt(v)` on the value selected by `requirement.amount ||
requirement.maxAmountRequired`: `undefined`, `null` and plain objects throw
(`none`); strings parse; numbers pass through (they are integral in this
model).  Arrays, which JS would first stringify, are modelled as throwing —
no SDK requirement carries an array amount. -/
def jsBigInt : Option JVal → Option Int
  | none => none
  | some (.str s) => parseBigIntStr s
  | some (.num n) => some n
  | some .jnull => none
  | some (.obj _) => none
  | some (.arr _) => none

/-! ## Judge decision (`HaloPaymentTools.consultJudge`, response side) -/

/-- The nested path `d.candidates?.[0]?.content?.parts?.[0]?.text` for a
non-null `d`. -/
def candTextChain (d : JVal) : Option JVal :=
  optField (optIdx0 (optField (optField (optIdx0 (getField d "candidates")) "content") "parts")) "text"

/-- `data.candidates?.[0]?.content?.parts?.[0]?.text?.trim().toUpperCase() || "ERROR"`.
Throws (`.error`) when `data` is `null` (the unguarded `.candidates` access)
or when the nested text is a non-string non-nullish value (`.trim` on it). -/
def judgeDecision (data : JVal) : Except Unit String :=
  match data with
  | .jnull => .error ()
  | d =>
    match candTextChain d with
    | none => .ok "ERROR"
    | some .jnull => .ok "ERROR"
    | some (.str s) =>
        let u := jsUpper (jsTrim s)
        .ok (if u = "" then "ERROR" else u)
    | some _ => .error ()

/-- The approval test of the caller: `decision.includes("YES")`. -/
def judgeApproves (decision : String) : Bool := strHas decision "YES"

/-! ## Payment signing (`HaloPaymentTools.signPayment`) -/

/-- The EIP-712 domain the SDK builds. -/
structure TypedDomain where
  name : JVal
  version : JVal
  chainId : Int
  verifyingContract : Option JVal

/-- The `TransferWithAuthorization` message the SDK signs. -/
structure TypedMsg where
  fromAddr : String
  toVal : Option JVal
  value : Int
  validAfter : Int
  validBefore : Int
  nonce : String

/-- Everything a successful `signPayment` call produces. -/
structure SignOut where
  envelope : String
  nonce : String
  signature : String
  amount : Int
  validAfter : Int
  validBefore : Int
  domain : TypedDomain
  message : TypedMsg

/-- `requirement.amount || requirement.maxAmountRequired`. -/
def amountSel (req : JVal) : Option JVal :=
  jsOr (getField req "amount") (getField req "maxAmountRequired")

/-- A JSON object field that is dropped when its value is `undefined`
(`JSON.stringify` omits such properties). -/
def optKeyField (k : String) (v : Option JVal) : List (String × JVal) :=
  match v with
  | some x => [(k, x)]
  | none => []

/-- The `authorization` object of the V2 payload, fields in source order,
numeric fields stringified. -/
def mkAuthFields (addr : String) (toV : Option JVal) (amount va vb : Int)
    (nonce : String) : List (String × JVal) :=
  (("from", JVal.str addr) :: optKeyField "to" toV
      ++ [("value", JVal.str (toString amount)),
          ("validAfter", JVal.str (toString va)),
          ("validBefore", JVal.str (toString vb))])
    ++ [("nonce", JVal.str nonce)]

/-- The V2 payload object `signPayment` serializes and base64-encodes. -/
def mkPayloadObj (req : JVal) (addr : String) (sig : String) (toV : Option JVal)
    (amount va vb : Int) (nonce : String) : JVal :=
  .obj ([("x402Version", JVal.num 2), ("accepted", req)]
    ++ [("payload", .obj ([("signature", JVal.str sig)]
      ++ [("authorization", .obj (mkAuthFields addr toV amount va vb nonce))]))])

/-- The EIP-712 domain `signPayment` builds:
`{name: requirement.extra?.name || "USD Coin", version: requirement.extra?.version || "2",
chainId: 8453, verifyingContract: requirement.asset}`. -/
def signDomain (req : JVal) : TypedDomain :=
  { name := jsOrV (optField (getField req "extra") "name") (.str "USD Coin")
    version := jsOrV (optField (getField req "extra") "version") (.str "2")
    chainId := 8453
    verifyingContract := getField req "asset" }

/-- The `TransferWithAuthorization` message `signPayment` signs. -/
def signMessage (addr : String) (req : JVal) (amount va vb : Int) (nonce : String) : TypedMsg :=
  { fromAddr := addr, toVal := getField req "payTo", value := amount
    validAfter := va, validBefore := vb, nonce := nonce }

/-- The payload object a successful `signPayment` run serializes:
the window is `[now − 60, now + 3600]`, the nonce the hexlified random
draw, the signature the external primitive applied to the domain and
message. -/
def signPayloadOf (addr : String) (sigFn : TypedDomain → TypedMsg → String)
    (req : JVal) (now : Int) (rnd : List Nat) (amount : Int) : JVal :=
  mkPayloadObj req addr
    (sigFn (signDomain req) (signMessage addr req amount (now - 60) (now + 3600) (hexlifyStr rnd)))
    (getField req "payTo") amount (now - 60) (now + 3600) (hexlifyStr rnd)

/-- `HaloPaymentTools.signPayment`.  `wallet` is the signer address when a
private key was configured (`ethers.Wallet` derivation is external), `sigFn`
models `wallet.signTypedData`, `now` the whole-second clock reading (the
two `Date.now()` calls of the source are modelled with the one reading), `rnd`
the 32 random bytes drawn by `ethers.randomBytes(32)`.  The amount
conversion failing models the `BigInt(...)` throw. -/
def signPayment (wallet : Option String) (sigFn : TypedDomain → TypedMsg → String)
    (req : JVal) (now : Int) (rnd : List Nat) : Except String SignOut :=
  match wallet with
  | none => .error "No private key for signing."
  | some addr =>
    match jsBigInt (amountSel req) with
    | none => .error "amount conversion failed"
    | some amount =>
      let validAfter := now - 60
      let validBefore := now + 3600
      let nonce := hexlifyStr rnd
      let domain := signDomain req
      let message := signMessage addr req amount validAfter validBefore nonce
      let signature := sigFn domain message
      .ok { envelope := b64encodeStr (jstringify (signPayloadOf addr sigFn req now rnd amount))
            nonce := nonce, signature := signature, amount := amount
            validAfter := validAfter, validBefore := validBefore
            domain := domain, message := message }

/-! ## Requirement extraction (`HaloAutoHandler.autoRecover`, step 1) -/

/-- Strategy A: the `payment-required` header of the attached response,
base64-decoded and JSON-parsed; the whole attempt sits in a `try`, so any
parse failure yields nothing.  `jparse` models `JSON.parse` (an external
primitive), returning `none` where it would throw. -/
def stratA (jparse : String → Option JVal) (e : JsErr) : Option JVal :=
  match e.response with
  | none => none
  | some r =>
    match r.headerPR with
    | none => none
    | some hv => if hv = "" then none else jparse (b64decodeStr hv)

/-- Strategy B: the first entry of an array-valued `errorDetails`, kept only
when it carries an `accepts` list or an `x402Version` tag.  Reading
`.accepts` of a `null` first entry throws (`.error`), uncaught in the
source. -/
def stratB (e : JsErr) : Except Unit (Option JVal) :=
  match e.errorDetails with
  | some (.arr (.jnull :: _)) => .error ()
  | some (.arr (d0 :: _)) =>
      if jsTruthyO (getField d0 "accepts") then .ok (some d0)
      else if jsTruthyO (getField d0 "x402Version") then .ok (some d0)
      else .ok none
  | _ => .ok none

/-- `.` of the regex: any character but a line terminator. -/
def nonLT (c : Char) : Bool := c ≠ '\n' && c ≠ '\x0d'

/-- Could the greedy `.*` of `\[\{.*\}\]` stop after `m` characters of `u`:
everything consumed is on one line, and `}` `]` follow. -/
def closeAt (u : List Char) (m : Nat) : Bool :=
  ((u.take m).all nonLT) && (u.get? m == some '\x7d') && (u.get? (m + 1) == some ']')

/-- Greedy: the largest viable stop. -/
def bestClose (u : List Char) : Option Nat :=
  (List.range u.length).reverse.find? (fun m => closeAt u m)

/-- Leftmost match of `/\[(\{.*\})\]/`, returning capture group 1. -/
def reFind : List Char → Option (List Char)
  | [] => none
  | '[' :: '\x7b' :: u =>
      (match bestClose u with
       | some m => some ('\x7b' :: u.take (m + 1))
       | none => reFind ('\x7b' :: u))
  | _ :: t => reFind t

/-- Strategy C: a bracket-enclosed JSON object in the error message, parse
failures discarded. -/
def stratC (jparse : String → Option JVal) (e : JsErr) : Option JVal :=
  match e.message with
  | none => none
  | some m =>
    if m = "" then none
    else
      match reFind m.data with
      | some g => jparse (String.mk g)
      | none => none

/-- The extraction chain: A, then B only if A produced nothing truthy, then
C only if B did too; `.ok none` when all three leave `reqData` falsy (the
source then dumps the error and throws), `.error` on the uncaught
`TypeError`. -/
def extract (jparse : String → Option JVal) (e : JsErr) : Except Unit (Option JVal) :=
  let a := stratA jparse e
  if jsTruthyO a then .ok a
  else
    match stratB e with
    | .error u => .error u
    | .ok b =>
      if jsTruthyO b then .ok b
      else
        let c := stratC jparse e
        if jsTruthyO c then .ok c else .ok none

/-! ## Retry response shaping (`HaloAutoHandler.retry`) -/

/-- A field of the reshaped retry result: either the lazily
evaluated `text()` accessor of the wrapper or a native JSON field passed
through. -/
inductive RField where
  | accessor : Except Unit JVal → RField
  | native : JVal → RField

/-- What the `text()` closure evaluates to when called:
`json.candidates?.[0]?.content?.parts?.[0]?.text || ""`; throws when `json`
is `null`. -/
def textAccess (json : JVal) : Except Unit JVal :=
  match json with
  | .jnull => .error ()
  | d => .ok (jsOrV (candTextChain d) (.str ""))

/-- The own enumerable fields `...json` spreads. -/
def spreadFields : JVal → List (String × JVal)
  | .obj fs => fs
  | .str s => ((List.range s.data.length).zip s.data).map
      (fun p => (toString p.1, JVal.str (String.mk [p.2])))
  | _ => []

/-- `{ response: { text: () => ... }, ...json }` — the wrapper field first,
then the spread of the own fields of the parsed body, later keys shadowing
earlier ones. -/
def mkRetryResult (json : JVal) : List (String × RField) :=
  ("response", RField.accessor (textAccess json))
    :: (spreadFields json).map (fun p => (p.1, RField.native p.2))

/-- Property lookup on the field list of an object literal: the last occurrence
of a key wins. -/
def lookLast {α : Type} : List (String × α) → String → Option α
  | [], _ => none
  | (k', v) :: t, k =>
    match lookLast t k with
    | some r => some r
    | none => if k' == k then some v else none

/-! ## The recovery driver (`HaloAutoHandler.autoRecover`) and interceptor -/

/-- An externally observable step of a recovery run. -/
inductive Act where
  | dumpErr : JsErr → Act
  | judgeCall : Option JVal → Option JVal → Act
  | signCall : JVal → Act
  | retryCall : String → Option JVal → Act

/-- A failure surfaced by the wrapped call after interception. -/
inductive RErr where
  | rethrown : JsErr → RErr
  | extractionFailure : RErr
  | typeError : RErr
  | judgeDenied : RErr
  | judgeTransport : RErr
  | signError : String → RErr
  | retryFailed : String → RErr

/-- A success surfaced by the wrapped call after interception. -/
inductive RVal where
  | plain : JVal → RVal
  | recovered : List (String × RField) → RVal

/-- The external world a recovery run interacts with: `JSON.parse`, the
parsed reply of the judge endpoint, the signature primitive, the clock, the
random draw, and the reply of the retry endpoint. -/
structure RecEnv where
  jparse : String → Option JVal
  judgeData : JVal
  sigFn : TypedDomain → TypedMsg → String
  now : Int
  rnd : List Nat
  retryOk : Bool
  retryJson : JVal
  retryFailText : String

/-- `HaloAutoHandler` state: whether `config.privateKey ||
process.env.HALO_WALLET_PRIVATE_KEY` was truthy (which both enables
`autoApprove` and creates the wallet) and the derived wallet address. -/
structure HandlerM where
  hasKey : Bool
  addr : String

/-- The wallet `HaloPaymentTools` holds: present exactly when the key was. -/
def walletOf (h : HandlerM) : Option String :=
  if h.hasKey then some h.addr else none

/-- `HaloAutoHandler` construction from the config key and the environment
fallback. -/
def mkHandler (cfgPk envPk : Option String) (addr : String) : HandlerM :=
  { hasKey := strTruthy (jsOrStr cfgPk envPk), addr := addr }

/-- `haloSystem`: throws unless `config.privateKey ||
process.env.HALO_WALLET_PRIVATE_KEY` is truthy, otherwise wraps the model
with a handler built from the same config and environment. -/
def haloSystemM (cfgPk envPk : Option String) (addr : String) : Except String HandlerM :=
  if strTruthy (jsOrStr cfgPk envPk) then .ok (mkHandler cfgPk envPk addr)
  else .error "privateKey is required for haloSystem"

/-- The retry request body: a bare string first argument is wrapped in the
single-message content structure, anything else passes through. -/
def buildRetryBody (args : List JVal) : Option JVal :=
  match args.head? with
  | some (.str s) =>
      some (.obj [("contents", .arr [.obj [("parts", .arr [.obj [("text", JVal.str s)]])]])])
  | x => x

/-- Steps 3–4 of `autoRecover`: sign, then retry on success; `pre` is the
trace accumulated so far (the judge consultation, on the no-key path). -/
def signAndRetry (h : HandlerM) (env : RecEnv) (requirement : JVal) (args : List JVal)
    (pre : List Act) : List Act × Except RErr RVal :=
  match signPayment (walletOf h) env.sigFn requirement env.now env.rnd with
  | .error m => (pre ++ [.signCall requirement], .error (.signError m))
  | .ok out =>
      if env.retryOk then
        (pre ++ [.signCall requirement, .retryCall out.envelope (buildRetryBody args)],
          .ok (.recovered (mkRetryResult env.retryJson)))
      else
        (pre ++ [.signCall requirement, .retryCall out.envelope (buildRetryBody args)],
          .error (.retryFailed env.retryFailText))

/-- `HaloAutoHandler.autoRecover`: extract, auto-approve or consult the
judge, sign, retry.  Returns the observable action trace and the outcome. -/
def autoRecover (h : HandlerM) (env : RecEnv) (e : JsErr) (args : List JVal) :
    List Act × Except RErr RVal :=
  match extract env.jparse e with
  | .error _ => ([], .error .typeError)
  | .ok none => ([.dumpErr e], .error .extractionFailure)
  | .ok (some reqData) =>
      match (if jsTruthyO (getField reqData "accepts")
             then optIdx0 (getField reqData "accepts") else some reqData) with
      | none => ([], .error .typeError)
      | some .jnull => ([], .error .typeError)
      | some requirement =>
          let resource := jsOrV (getField reqData "resource") (.obj [])
          let amountStr := amountSel requirement
          if h.hasKey then
            signAndRetry h env requirement args []
          else
            match judgeDecision env.judgeData with
            | .error _ =>
                ([.judgeCall (getField resource "description") amountStr], .error .judgeTransport)
            | .ok decision =>
                if judgeApproves decision then
                  signAndRetry h env requirement args
                    [.judgeCall (getField resource "description") amountStr]
                else
                  ([.judgeCall (getField resource "description") amountStr], .error .judgeDenied)

/-- Is this action a judge consultation? -/
def Act.isJudge : Act → Bool
  | .judgeCall _ _ => true
  | _ => false

/-- Is this action a signing call? -/
def Act.isSign : Act → Bool
  | .signCall _ => true
  | _ => false

/-- Is this action a retry request? -/
def Act.isRetry : Act → Bool
  | .retryCall _ _ => true
  | _ => false

/-- The result of invoking the original wrapped method. -/
inductive CallRes where
  | ok : JVal → CallRes
  | err : JsErr → CallRes

/-- The proxy handler of `haloSystem` around one wrapped call: pass success
through, classify failures, recover on 402, rethrow the original failure
otherwise. -/
def intercepted (h : HandlerM) (env : RecEnv) (r : CallRes) (args : List JVal) :
    List Act × Except RErr RVal :=
  match r with
  | .ok v => ([], .ok (.plain v))
  | .err e => if isPaymentRequired e then autoRecover h env e args else ([], .error (.rethrown e))

/-!
## Concrete instances

Sample errors, requirements, environments and handlers used by the
counterexamples and witnesses below.
-/

def sigW : TypedDomain → TypedMsg → String := fun _ _ => "0xSIG"

def judgeDataOf (t : JVal) : JVal :=
  .obj [("candidates", .arr [.obj [("content", .obj [("parts", .arr [.obj [("text", t)]])])]])]

def retryJsonW : JVal := judgeDataOf (.str "hello")

def req402W : JVal :=
  .obj [("amount", .str "1000000"), ("asset", .str "0xUSDC"), ("payTo", .str "0xDest")]

def errDetW : JsErr :=
  { response := none, status := some (.num 402), message := none
    errorDetails := some (.arr [.obj [("accepts", .arr [req402W])]]) }

def envW : RecEnv :=
  { jparse := fun _ => none, judgeData := judgeDataOf (.str "NO"), sigFn := sigW
    now := 1700000000, rnd := List.replicate 32 0, retryOk := true
    retryJson := retryJsonW, retryFailText := "fail" }

def hKeyW : HandlerM := { hasKey := true, addr := "0xW" }

def hNoKeyW : HandlerM := { hasKey := false, addr := "0xW" }

def exC1 : JsErr :=
  { response := some { status := some (.num 500), headerPR := none }
    status := some (.num 402), message := none, errorDetails := none }

def ex500 : JsErr :=
  { response := some { status := some (.num 500), headerPR := none }
    status := some (.num 500), message := some "Internal Server Error", errorDetails := none }

def reqNoAmtW : JVal := .obj [("x402Version", .num 2), ("payTo", .str "0xDest"), ("asset", .str "0xA")]

def errNoAmtW : JsErr :=
  { response := none, status := some (.num 402), message := none
    errorDetails := some (.arr [reqNoAmtW]) }

def reqNegW : JVal := .obj [("amount", .str "-5"), ("payTo", .str "0xD")]

def signOutW : SignOut :=
  match signPayment (some "0xW") sigW req402W 1700000000 (List.replicate 32 0) with
  | .ok o => o
  | .error _ =>
      { envelope := "", nonce := "", signature := "", amount := 0, validAfter := 0
        validBefore := 0
        domain := { name := .jnull, version := .jnull, chainId := 0, verifyingContract := none }
        message := { fromAddr := "", toVal := none, value := 0, validAfter := 0
                     validBefore := 0, nonce := "" } }

def rTwoW : List Nat := 1 :: List.replicate 31 0

/-!
## Helper lemmas

Round-trip and injectivity facts about the byte-level encodings, and the
suffix structure of the serialized payload, used by the non-replayability
claim.
-/

theorem b64Val_b64Char_fin : ∀ i : Fin 64, b64Val (b64Char i.val) = i.val := by decide

theorem isB64_b64Char_fin : ∀ i : Fin 64, isB64 (b64Char i.val) = true := by decide

theorem b64Val_b64Char {n : Nat} (h : n < 64) : b64Val (b64Char n) = n :=
  b64Val_b64Char_fin ⟨n, h⟩

theorem isB64_b64Char {n : Nat} (h : n < 64) : isB64 (b64Char n) = true :=
  isB64_b64Char_fin ⟨n, h⟩

theorem isB64_pad : isB64 '=' = false := rfl

theorem b64_rt : (l : List Nat) → (∀ b ∈ l, b < 256) → b64dChars (b64e l) = l
  | [], _ => rfl
  | [b1], h => by
      have hb1 : b1 < 256 := h b1 (by simp)
      have h1 : b1 / 4 < 64 := by omega
      have h2 : b1 % 4 * 16 < 64 := by omega
      have e1 : b1 % 4 * 16 / 16 = b1 % 4 := by omega
      simp only [b64e, b64dChars, List.filter, isB64_b64Char h1, isB64_b64Char h2, isB64_pad,
        List.map, b64Val_b64Char h1, b64Val_b64Char h2, b64dAux, List.cons.injEq, and_true, e1]
      omega
  | [b1, b2], h => by
      have hb1 : b1 < 256 := h b1 (by simp)
      have hb2 : b2 < 256 := h b2 (by simp)
      have h1 : b1 / 4 < 64 := by omega
      have h2 : b1 % 4 * 16 + b2 / 16 < 64 := by omega
      have h3 : b2 % 16 * 4 < 64 := by omega
      simp only [b64e, b64dChars, List.filter, isB64_b64Char h1, isB64_b64Char h2,
        isB64_b64Char h3, isB64_pad, List.map, b64Val_b64Char h1, b64Val_b64Char h2,
        b64Val_b64Char h3, b64dAux, List.cons.injEq, and_true]
      refine ⟨by omega, by omega⟩
  | b1 :: b2 :: b3 :: rest, h => by
      have hb1 : b1 < 256 := h b1 (by simp)
      have hb2 : b2 < 256 := h b2 (by simp)
      have hb3 : b3 < 256 := h b3 (by simp)
      have h1 : b1 / 4 < 64 := by omega
      have h2 : b1 % 4 * 16 + b2 / 16 < 64 := by omega
      have h3 : b2 % 16 * 4 + b3 / 64 < 64 := by omega
      have h4 : b3 % 64 < 64 := by omega
      have ih := b64_rt rest (fun b hb => h b (by simp [hb]))
      simp only [b64dChars] at ih
      simp only [b64e, b64dChars, List.filter, isB64_b64Char h1, isB64_b64Char h2,
        isB64_b64Char h3, isB64_b64Char h4, List.map, b64Val_b64Char h1, b64Val_b64Char h2,
        b64Val_b64Char h3, b64Val_b64Char h4, b64dAux, List.cons.injEq, ih]
      refine ⟨by omega, by omega, by omega, trivial⟩

theorem toNat_inj {c d : Char} (h : c.toNat = d.toNat) : c = d := by
  have := congrArg Char.ofNat h
  simpa [Char.ofNat_toNat] using this

theorem map_toNat_inj : (l1 l2 : List Char) → l1.map Char.toNat = l2.map Char.toNat → l1 = l2
  | [], [], _ => rfl
  | c :: t, d :: u, h => by
      simp only [List.map, List.cons.injEq] at h
      exact congrArg₂ (· :: ·) (toNat_inj h.1) (map_toNat_inj t u h.2)

/-- `b64encodeStr` is injective on ASCII-range strings. -/
theorem b64encodeStr_inj {s1 s2 : String}
    (h1 : ∀ c ∈ s1.data, c.toNat < 256) (h2 : ∀ c ∈ s2.data, c.toNat < 256)
    (he : b64encodeStr s1 = b64encodeStr s2) : s1 = s2 := by
  have hd : b64e (s1.data.map Char.toNat) = b64e (s2.data.map Char.toNat) := by
    have := congrArg String.data he
    simpa [b64encodeStr] using this
  have hb1 : ∀ b ∈ s1.data.map Char.toNat, b < 256 := by
    intro b hb
    obtain ⟨c, hc, rfl⟩ := List.mem_map.mp hb
    exact h1 c hc
  have hb2 : ∀ b ∈ s2.data.map Char.toNat, b < 256 := by
    intro b hb
    obtain ⟨c, hc, rfl⟩ := List.mem_map.mp hb
    exact h2 c hc
  have := (b64_rt _ hb1).symm.trans ((congrArg b64dChars hd).trans (b64_rt _ hb2))
  cases s1; cases s2
  exact congrArg String.mk (map_toNat_inj _ _ this)

theorem hexDigit_inj_fin : ∀ i j : Fin 16, hexDigit i.val = hexDigit j.val → i = j := by decide

theorem hexDigit_inj {a b : Nat} (ha : a < 16) (hb : b < 16) (h : hexDigit a = hexDigit b) :
    a = b := by
  have := hexDigit_inj_fin ⟨a, ha⟩ ⟨b, hb⟩ h
  exact congrArg Fin.val this

theorem hexChars_length : (l : List Nat) → (hexChars l).length = 2 * l.length
  | [] => rfl
  | b :: t => by simp [hexChars, byteHex, hexChars_length t]; omega

theorem hexChars_inj : (l1 l2 : List Nat) → (∀ b ∈ l1, b < 256) → (∀ b ∈ l2, b < 256) →
    l1.length = l2.length → hexChars l1 = hexChars l2 → l1 = l2
  | [], [], _, _, _, _ => rfl
  | a :: t, b :: u, h1, h2, hl, h => by
      have ha : a < 256 := h1 a (by simp)
      have hb : b < 256 := h2 b (by simp)
      simp only [hexChars, byteHex, List.cons_append, List.nil_append, List.cons.injEq] at h
      have e1 : a / 16 = b / 16 := hexDigit_inj (by omega) (by omega) h.1
      have e2 : a % 16 = b % 16 := hexDigit_inj (by omega) (by omega) h.2.1
      have : a = b := by omega
      subst this
      have := hexChars_inj t u (fun x hx => h1 x (by simp [hx])) (fun x hx => h2 x (by simp [hx]))
        (by simpa using hl) h.2.2
      simp [this]

theorem hexlifyStr_inj {l1 l2 : List Nat} (h1 : ∀ b ∈ l1, b < 256) (h2 : ∀ b ∈ l2, b < 256)
    (hl : l1.length = l2.length) (h : hexlifyStr l1 = hexlifyStr l2) : l1 = l2 := by
  have := congrArg String.data h
  simp only [hexlifyStr, List.cons.injEq, true_and] at this
  exact hexChars_inj l1 l2 h1 h2 hl this

theorem escChar_hexDigit_fin : ∀ i : Fin 16, escChar (hexDigit i.val) = [hexDigit i.val] := by
  decide

theorem escList_append : (l1 l2 : List Char) → escList (l1 ++ l2) = escList l1 ++ escList l2
  | [], _ => rfl
  | c :: t, l2 => by simp [escList, escList_append t l2]

theorem escList_hexChars : (l : List Nat) → (∀ b ∈ l, b < 256) →
    escList (hexChars l) = hexChars l
  | [], _ => rfl
  | b :: t, h => by
      have hb : b < 256 := h b (by simp)
      have e1 := escChar_hexDigit_fin ⟨b / 16, by omega⟩
      have e2 := escChar_hexDigit_fin ⟨b % 16, by omega⟩
      simp only [hexChars, byteHex, List.cons_append, List.nil_append, escList, e1, e2]
      simp [escList_hexChars t (fun x hx => h x (by simp [hx]))]

theorem jstrObj_last : (fs : List (String × JVal)) → (k : String) → (v : JVal) →
    ∃ A, jstrObj (fs ++ [(k, v)]) = A ++ jstrChars v
  | [], k, v => ⟨'"' :: escList k.data ++ ['"', ':'], by simp [jstrObj]⟩
  | (k', v') :: rest, k, v => by
      obtain ⟨A', hA'⟩ := jstrObj_last rest k v
      rcases hrest : rest ++ [(k, v)] with _ | ⟨w, t⟩
      · exact absurd hrest (by simp)
      · refine ⟨('"' :: escList k'.data ++ '"' :: ':' :: jstrChars v') ++ ',' :: A', ?_⟩
        rw [List.cons_append, hrest]
        rw [hrest] at hA'
        simp [jstrObj, hA']

theorem jstrChars_obj_last (fs : List (String × JVal)) (k : String) (v : JVal) :
    ∃ A, jstrChars (.obj (fs ++ [(k, v)])) = A ++ jstrChars v ++ ['\x7d'] := by
  obtain ⟨A, hA⟩ := jstrObj_last fs k v
  exact ⟨'\x7b' :: A, by simp [jstrChars, hA]⟩

theorem payload_decomp (req : JVal) (addr sig : String) (toV : Option JVal)
    (amount va vb : Int) (nonce : String) :
    ∃ A, jstrChars (mkPayloadObj req addr sig toV amount va vb nonce)
      = A ++ (escList nonce.data ++ ['"', '\x7d', '\x7d', '\x7d']) := by
  obtain ⟨A3, h3⟩ := jstrChars_obj_last
    (("from", JVal.str addr) :: optKeyField "to" toV
      ++ [("value", JVal.str (toString amount)),
          ("validAfter", JVal.str (toString va)),
          ("validBefore", JVal.str (toString vb))]) "nonce" (JVal.str nonce)
  obtain ⟨A2, h2⟩ := jstrChars_obj_last [("signature", JVal.str sig)] "authorization"
    (.obj (mkAuthFields addr toV amount va vb nonce))
  obtain ⟨A1, h1⟩ := jstrChars_obj_last [("x402Version", JVal.num 2), ("accepted", req)]
    "payload" (.obj ([("signature", JVal.str sig)]
      ++ [("authorization", .obj (mkAuthFields addr toV amount va vb nonce))]))
  refine ⟨A1 ++ A2 ++ (A3 ++ ['"']), ?_⟩
  have h3' : jstrChars (JVal.obj (mkAuthFields addr toV amount va vb nonce))
      = A3 ++ jstrChars (.str nonce) ++ ['\x7d'] := h3
  rw [mkPayloadObj, h1, h2, h3']
  simp [jstrChars, escList, List.append_assoc]

theorem escList_hexlify_data (r : List Nat) (hb : ∀ b ∈ r, b < 256) :
    escList (hexlifyStr r).data = '0' :: 'x' :: hexChars r := by
  show escList ('0' :: 'x' :: hexChars r) = _
  simp only [escList]
  rw [escList_hexChars r hb]
  rfl

theorem payload_chars_ne (req1 req2 : JVal) (addr1 addr2 sig1 sig2 : String)
    (toV1 toV2 : Option JVal) (am1 am2 va1 va2 vb1 vb2 : Int) (r1 r2 : List Nat)
    (hb1 : ∀ b ∈ r1, b < 256) (hb2 : ∀ b ∈ r2, b < 256)
    (hl : r1.length = r2.length) (hne : r1 ≠ r2) :
    jstrChars (mkPayloadObj req1 addr1 sig1 toV1 am1 va1 vb1 (hexlifyStr r1))
      ≠ jstrChars (mkPayloadObj req2 addr2 sig2 toV2 am2 va2 vb2 (hexlifyStr r2)) := by
  intro h
  obtain ⟨A1, h1⟩ := payload_decomp req1 addr1 sig1 toV1 am1 va1 vb1 (hexlifyStr r1)
  obtain ⟨A2, h2⟩ := payload_decomp req2 addr2 sig2 toV2 am2 va2 vb2 (hexlifyStr r2)
  rw [h1, h2, escList_hexlify_data r1 hb1, escList_hexlify_data r2 hb2] at h
  have hlen : ('0' :: 'x' :: hexChars r1 ++ ['"', '\x7d', '\x7d', '\x7d']).length
      = ('0' :: 'x' :: hexChars r2 ++ ['"', '\x7d', '\x7d', '\x7d']).length := by
    simp [hexChars_length, hl]
  have := (List.append_inj' h hlen).2
  simp only [List.cons_append, List.cons.injEq, true_and] at this
  have hx := List.append_inj this (by simp [hexChars_length, hl])
  exact hne (hexChars_inj r1 r2 hb1 hb2 hl hx.1)

/-!
## Facts about recovery traces
-/

theorem signAndRetry_trace (h : HandlerM) (env : RecEnv) (r : JVal) (args : List JVal)
    (pre : List Act) :
    ∀ a ∈ (signAndRetry h env r args pre).1, a ∈ pre ∨ a.isJudge = false := by
  intro a ha
  unfold signAndRetry at ha
  rcases hs : signPayment (walletOf h) env.sigFn r env.now env.rnd with m | o
  · rw [hs] at ha
    simp at ha
    rcases ha with ha | ha
    · exact .inl ha
    · subst ha; exact .inr rfl
  · rw [hs] at ha
    rcases hro : env.retryOk with _ | _ <;> rw [hro] at ha <;> simp at ha <;>
      rcases ha with ha | ha | ha
    · exact .inl ha
    · subst ha; exact .inr rfl
    · subst ha; exact .inr rfl
    · exact .inl ha
    · subst ha; exact .inr rfl
    · subst ha; exact .inr rfl

theorem autoRecover_hasKey_no_judge (h : HandlerM) (env : RecEnv) (e : JsErr)
    (args : List JVal) (hk : h.hasKey = true) :
    ∀ a ∈ (autoRecover h env e args).1, a.isJudge = false := by
  intro a ha
  unfold autoRecover at ha
  split at ha
  · simp at ha
  · simp at ha; subst ha; rfl
  · split at ha
    · simp at ha
    · simp at ha
    · simp only [hk, if_true] at ha
      rcases signAndRetry_trace h env _ args [] a ha with hin | hj
      · simp at hin
      · exact hj

theorem autoRecover_no_key_cases (h : HandlerM) (env : RecEnv) (e : JsErr) (args : List JVal)
    (hk : h.hasKey = false) :
    (autoRecover h env e args = ([], .error .typeError))
    ∨ (autoRecover h env e args = ([.dumpErr e], .error .extractionFailure))
    ∨ (∃ d am u, judgeDecision env.judgeData = .error u ∧
        autoRecover h env e args = ([.judgeCall d am], .error .judgeTransport))
    ∨ (∃ d am dec, judgeDecision env.judgeData = .ok dec ∧ judgeApproves dec = false ∧
        autoRecover h env e args = ([.judgeCall d am], .error .judgeDenied))
    ∨ (∃ d am r dec, judgeDecision env.judgeData = .ok dec ∧ judgeApproves dec = true ∧
        autoRecover h env e args
          = ([.judgeCall d am, .signCall r], .error (.signError "No private key for signing."))) := by
  have hw : walletOf h = none := by simp [walletOf, hk]
  unfold autoRecover
  split
  · exact .inl rfl
  · exact .inr (.inl rfl)
  · split
    · exact .inl rfl
    · exact .inl rfl
    · rename_i rqd hext vv rq hnn hmeq
      simp only [hk, Bool.false_eq_true, if_false]
      rcases hj : judgeDecision env.judgeData with u | dec
      · exact .inr (.inr (.inl ⟨_, _, u, rfl, rfl⟩))
      · rcases hap : judgeApproves dec with _ | _
        · refine .inr (.inr (.inr (.inl
            ⟨getField (jsOrV (getField rqd "resource") (.obj [])) "description",
             amountSel rq, dec, rfl, hap, ?_⟩)))
          simp only [hap, Bool.false_eq_true, if_false]
        · refine .inr (.inr (.inr (.inr
            ⟨getField (jsOrV (getField rqd "resource") (.obj [])) "description",
             amountSel rq, rq, dec, rfl, hap, ?_⟩)))
          simp only [hap, if_true]
          unfold signAndRetry
          rw [hw]
          simp [signPayment]

end Halo

namespace Halo

theorem lookLast_map_native : (fs : List (String × JVal)) → (k : String) →
    lookLast (fs.map (fun p => (p.1, RField.native p.2))) k = (lookLast fs k).map RField.native
  | [], _ => rfl
  | (k', v) :: t, k => by
      simp only [List.map, lookLast, lookLast_map_native t k]
      rcases lookLast t k with _ | r
      · simp only [Option.map]
        split <;> rfl
      · rfl

/-- C9.  For a fixed requirement, signer and clock, two signing calls whose
32-byte random draws differ produce different nonces and different
serialized envelopes; the nonce is a function of the draw alone
(`hexlifyStr`), so no other per-call state can make repeated calls
collide. -/
theorem signPayment_distinct_draws (req : JVal) (addr : String)
    (sigFn : TypedDomain → TypedMsg → String) (now : Int) (amount : Int) (r1 r2 : List Nat)
    (hamt : jsBigInt (amountSel req) = some amount)
    (hb1 : ∀ b ∈ r1, b < 256) (hb2 : ∀ b ∈ r2, b < 256)
    (hl1 : r1.length = 32) (hl2 : r2.length = 32) (hne : r1 ≠ r2)
    (hA1 : ∀ c ∈ (jstrChars (signPayloadOf addr sigFn req now r1 amount)), c.toNat < 256)
    (hA2 : ∀ c ∈ (jstrChars (signPayloadOf addr sigFn req now r2 amount)), c.toNat < 256) :
    (signPayment (some addr) sigFn req now r1).map SignOut.nonce = .ok (hexlifyStr r1)
      ∧ (signPayment (some addr) sigFn req now r1).map SignOut.nonce
          ≠ (signPayment (some addr) sigFn req now r2).map SignOut.nonce
      ∧ (signPayment (some addr) sigFn req now r1).map SignOut.envelope
          ≠ (signPayment (some addr) sigFn req now r2).map SignOut.envelope := by
  simp only [signPayment, hamt]
  refine ⟨rfl, ?_, ?_⟩
  · simp only [Except.map, ne_eq, Except.ok.injEq]
    intro h
    exact hne (hexlifyStr_inj hb1 hb2 (by omega) h)
  · simp only [Except.map, ne_eq, Except.ok.injEq]
    intro h
    have hj := @b64encodeStr_inj (jstringify (signPayloadOf addr sigFn req now r1 amount))
      (jstringify (signPayloadOf addr sigFn req now r2 amount)) hA1 hA2 h
    have hc : jstrChars (signPayloadOf addr sigFn req now r1 amount)
        = jstrChars (signPayloadOf addr sigFn req now r2 amount) := by
      have := congrArg String.data hj
      simpa [jstringify] using this
    exact payload_chars_ne req req addr addr _ _ _ _ amount amount _ _ _ _ r1 r2 hb1 hb2
      (by omega) hne hc

/-!
## The claims
-/

/-- C1, counterexample.  The claim says classification is payment-required
exactly when the response status field or the own status field of the error
equals 402 (or the message carries an indicator).  The failure `exC1` has a
response status of 500 masking an own status field of 402: the claimed
classification holds, yet the code classifies it as not payment-required and
rethrows it unchanged, invoking no recovery step. -/
theorem c1_counterexample :
    specClaimedPR exC1 = true ∧ isPaymentRequired exC1 = false
      ∧ intercepted hKeyW envW (.err exC1) [] = ([], .error (.rethrown exC1)) :=
  ⟨rfl, rfl, rfl⟩

/-- C1, amended.  Classification uses the first truthy value among the
response status and the own status of the error (a truthy non-402 response
status therefore masks an own status of 402), compared strictly against 402,
or a `402` / `Payment Required` substring of the message; every failure not
so classified is rethrown unchanged — with the same error object, an empty
action trace, so no extraction, judging, signing or retry step runs — and
successes pass through untouched. -/
theorem c1_amended :
    (∀ e, isPaymentRequired e
        = (is402 (statusOf e) || msgHas e "402" || msgHas e "Payment Required"))
    ∧ (∀ h env e args, isPaymentRequired e = false →
        intercepted h env (.err e) args = ([], .error (.rethrown e)))
    ∧ (∀ h env v args, intercepted h env (.ok v) args = ([], .ok (.plain v))) := by
  refine ⟨fun e => rfl, fun h env e args hpr => ?_, fun h env v args => rfl⟩
  simp [intercepted, hpr]

/-- C1, witness: a failure with status 500 everywhere and no 402
indicator in its message passes through unchanged. -/
theorem c1_witness :
    isPaymentRequired ex500 = false
      ∧ intercepted hKeyW envW (.err ex500) [] = ([], .error (.rethrown ex500)) :=
  ⟨rfl, c1_amended.2.1 hKeyW envW ex500 [] rfl⟩

/-- C2.  Extraction tries header, then details-array, then message-regex,
in that fixed order; each later strategy matters only when every earlier one
produced nothing truthy, the first to yield a parseable structure supplies
the result unmerged, and when all three produce nothing the recovery run
performs exactly the diagnostic dump of the original error and fails with
the extraction error — no judge, signing or retry step runs. -/
theorem c2_extraction_order :
    (∀ jp e, jsTruthyO (stratA jp e) = true → extract jp e = .ok (stratA jp e))
    ∧ (∀ jp e b, jsTruthyO (stratA jp e) = false → stratB e = .ok b → jsTruthyO b = true →
        extract jp e = .ok b)
    ∧ (∀ jp e, jsTruthyO (stratA jp e) = false → stratB e = .ok none →
        jsTruthyO (stratC jp e) = true → extract jp e = .ok (stratC jp e))
    ∧ (∀ jp e, jsTruthyO (stratA jp e) = false → stratB e = .ok none →
        jsTruthyO (stratC jp e) = false → extract jp e = .ok none)
    ∧ (∀ h env e args, jsTruthyO (stratA env.jparse e) = false → stratB e = .ok none →
        jsTruthyO (stratC env.jparse e) = false →
        autoRecover h env e args = ([.dumpErr e], .error .extractionFailure)) := by
  refine ⟨?_, ?_, ?_, ?_, ?_⟩
  · intro jp e ha
    simp [extract, ha]
  · intro jp e b ha hb htb
    simp [extract, ha, hb, htb]
  · intro jp e ha hb hc
    simp [extract, ha, hb, hc]
    simp [jsTruthyO]
  · intro jp e ha hb hc
    simp [extract, ha, hb, hc]
  · intro h env e args ha hb hc
    have : extract env.jparse e = .ok none := by
      simp [extract, ha, hb, hc]
    simp [autoRecover, this]

/-- C2, witness: the details-array strategy supplies the requirement when
the header yields nothing, and an error carrying no payment terms anywhere
makes recovery dump it and fail with the extraction error. -/
theorem c2_witness :
    extract (fun _ => none) errDetW = .ok (some (.obj [("accepts", .arr [req402W])]))
      ∧ autoRecover hKeyW envW ex500 [] = ([.dumpErr ex500], .error .extractionFailure) :=
  ⟨c2_extraction_order.2.1 (fun _ => none) errDetW _ rfl rfl rfl,
   c2_extraction_order.2.2.2.2 hKeyW envW ex500 [] rfl rfl rfl⟩

/-- C3, counterexample.  The requirement `reqNoAmtW` carries neither an
`amount` nor a `maxAmountRequired` field, yet extraction succeeds and the
requirement reaches the signing step, which is where the failure occurs —
contradicting the claim that extraction itself fails.  Moreover `BigInt`
accepts the negative string `-5`, so signed amounts are not checked to be
non-negative. -/
theorem c3_counterexample :
    extract (fun _ => none) errNoAmtW = .ok (some reqNoAmtW)
      ∧ getField reqNoAmtW "amount" = none
      ∧ getField reqNoAmtW "maxAmountRequired" = none
      ∧ (autoRecover hKeyW envW errNoAmtW []).1 = [.signCall reqNoAmtW]
      ∧ (autoRecover hKeyW envW errNoAmtW []).2 = .error (.signError "amount conversion failed")
      ∧ (signPayment (some "0xW") sigW reqNegW 1000 (List.replicate 32 0)).map SignOut.amount
          = .ok (-5) :=
  ⟨rfl, rfl, rfl, rfl, rfl, rfl⟩

/-- C3, amended.  The payment amount is an integer (possibly negative)
parsed by `BigInt` at signing time from `amount` or, when that field is
falsy, from `maxAmountRequired`; it is the signing step — not extraction —
that fails when neither field is present or the selected value is
non-numeric, and on success the signed value is exactly the parsed one. -/
theorem c3_amended :
    (∀ w sf req now rnd, jsBigInt (amountSel req) = none →
        signPayment (some w) sf req now rnd = .error "amount conversion failed")
    ∧ (∀ w sf req now rnd v, jsBigInt (amountSel req) = some v →
        (signPayment (some w) sf req now rnd).map SignOut.amount = .ok v)
    ∧ (∀ req v, getField req "amount" = none → getField req "maxAmountRequired" = some v →
        amountSel req = some v)
    ∧ (∀ req a, getField req "amount" = some a → jsTruthy a = true → amountSel req = some a)
    ∧ jsBigInt none = none
    ∧ (∀ s, jsBigInt (some (.str s)) = parseBigIntStr s) := by
  refine ⟨?_, ?_, ?_, ?_, rfl, fun s => rfl⟩
  · intro w sf req now rnd hn
    simp [signPayment, hn]
  · intro w sf req now rnd v hv
    simp [signPayment, hv, Except.map]
  · intro req v ha hm
    simp [amountSel, jsOr, ha, jsTruthyO, hm]
  · intro req a ha ht
    simp [amountSel, jsOr, ha, jsTruthyO, ht]

/-- C3, witness: a requirement with no amount field makes signing (not
extraction) fail, and one with `amount = "1000000"` signs that value. -/
theorem c3_witness :
    signPayment (some "0xW") sigW (.obj [("payTo", .str "0xD")]) 1000 (List.replicate 32 0)
        = .error "amount conversion failed"
      ∧ (signPayment (some "0xW") sigW req402W 1000 (List.replicate 32 0)).map SignOut.amount
          = .ok 1000000 :=
  ⟨c3_amended.1 "0xW" sigW _ 1000 (List.replicate 32 0) rfl,
   c3_amended.2.1 "0xW" sigW req402W 1000 (List.replicate 32 0) 1000000 rfl⟩

/-- C4.  When neither the config `privateKey` nor its environment
fallback is truthy, `haloSystem` fails immediately with its construction
error; every successfully constructed wrapper has a handler whose
auto-approve flag is true, and such a handler never emits a judge
consultation on any recovery run, so the judge-denied branch is unreachable
through `haloSystem`. -/
theorem c4_key_required :
    (∀ cfg env addr, strTruthy (jsOrStr cfg env) = false →
        haloSystemM cfg env addr = .error "privateKey is required for haloSystem")
    ∧ (∀ cfg env addr h, haloSystemM cfg env addr = .ok h → h.hasKey = true)
    ∧ (∀ cfg env addr h, haloSystemM cfg env addr = .ok h →
        ∀ renv e args, ∀ a ∈ (autoRecover h renv e args).1, a.isJudge = false) := by
  have hok : ∀ cfg env addr h, haloSystemM cfg env addr = .ok h → h.hasKey = true := by
    intro cfg env addr h hh
    unfold haloSystemM at hh
    rcases ht : strTruthy (jsOrStr cfg env) with _ | _
    · rw [ht] at hh; simp at hh
    · rw [ht] at hh
      simp at hh
      rw [← hh]
      exact ht
  refine ⟨?_, hok, ?_⟩
  · intro cfg env addr ht
    simp [haloSystemM, ht]
  · intro cfg env addr h hh renv e args
    exact autoRecover_hasKey_no_judge h renv e args (hok cfg env addr h hh)

/-- C4, witness: construction without any key fails, and a recovery run
of the successfully constructed handler consults no judge. -/
theorem c4_witness :
    haloSystemM none none "0xW" = .error "privateKey is required for haloSystem"
      ∧ (autoRecover hKeyW envW errDetW []).1.all (fun a => !a.isJudge) = true := by
  refine ⟨c4_key_required.1 none none "0xW" rfl, ?_⟩
  have := c4_key_required.2.2 (some "0xkey") none "0xW" hKeyW rfl envW errDetW []
  simp only [List.all_eq_true]
  intro a ha
  simp [this a ha]

/-- C5.  On a handler with no signing key: any signing call in the trace
is preceded by the judge consultation at the head of the trace; whenever the
judge decision does not contain `YES`, every run that consulted the judge
fails with the judge-denied error and the trace holds no signing call; no
retry request is ever issued on this path, and no recovery run can end in
success (the Signed state is unreachable without a key). -/
theorem c5_no_key_path (h : HandlerM) (env : RecEnv) (e : JsErr) (args : List JVal)
    (hk : h.hasKey = false) :
    (∀ r, Act.signCall r ∈ (autoRecover h env e args).1 →
        ∃ d am rest, (autoRecover h env e args).1 = Act.judgeCall d am :: rest)
    ∧ (∀ dec, judgeDecision env.judgeData = .ok dec → judgeApproves dec = false →
        (∀ d am, Act.judgeCall d am ∈ (autoRecover h env e args).1 →
            (autoRecover h env e args).2 = .error .judgeDenied)
        ∧ (∀ a ∈ (autoRecover h env e args).1, a.isSign = false))
    ∧ (∀ a ∈ (autoRecover h env e args).1, a.isRetry = false)
    ∧ (∀ rv, (autoRecover h env e args).2 ≠ .ok rv) := by
  rcases autoRecover_no_key_cases h env e args hk with hc | hc | ⟨d, am, u, hjE, hc⟩
    | ⟨d, am, dec, hj, hap, hc⟩ | ⟨d, am, r, dec, hj, hap, hc⟩ <;> rw [hc]
  · exact ⟨fun r hr => by simp at hr, fun dec _ _ => ⟨fun d am hm => by simp at hm, by simp⟩,
      by simp, fun rv => by simp⟩
  · refine ⟨fun r hr => by simp at hr, fun dec _ _ => ⟨fun d am hm => by simp at hm, ?_⟩,
      ?_, fun rv => by simp⟩
    · intro a ha; simp at ha; subst ha; rfl
    · intro a ha; simp at ha; subst ha; rfl
  · refine ⟨fun r hr => by simp at hr, fun dec' hj' _ => ?_, ?_, fun rv => by simp⟩
    · rw [hjE] at hj'
      cases hj'
    · intro a ha; simp at ha; subst ha; rfl
  · refine ⟨fun r hr => by simp at hr, fun dec' hj' hap' => ⟨fun d' am' hm => rfl, ?_⟩,
      ?_, fun rv => by simp⟩
    · intro a ha; simp at ha; subst ha; rfl
    · intro a ha; simp at ha; subst ha; rfl
  · refine ⟨fun r' hr => ⟨d, am, [Act.signCall r], rfl⟩, fun dec' hj' hap' => ?_, ?_, fun rv => by simp⟩
    · rw [hj] at hj'
      cases hj'
      rw [hap] at hap'
      cases hap'
    · intro a ha
      simp at ha
      rcases ha with ha | ha <;> subst ha <;> rfl

/-- C5, witness: the scenario of the specification — no key, judge says
`NO`, recovery fails with the judge-denied error and the trace holds no
signing call and no retry request. -/
theorem c5_witness :
    (autoRecover hNoKeyW envW errDetW []).2 = .error .judgeDenied
      ∧ (autoRecover hNoKeyW envW errDetW []).1.all (fun a => !a.isSign && !a.isRetry) = true := by
  have h := c5_no_key_path hNoKeyW envW errDetW [] rfl
  have hden := (h.2.1 "NO" rfl rfl).1 none (some (.str "1000000")) (by rw [show (autoRecover hNoKeyW envW errDetW []).1 = [.judgeCall none (some (.str "1000000"))] from rfl]; simp)
  refine ⟨hden, ?_⟩
  simp only [List.all_eq_true]
  intro a ha
  have h1 := (h.2.1 "NO" rfl rfl).2 a ha
  have h2 := h.2.2.1 a ha
  simp [h1, h2]

/-- C6.  The judge decision equals the nested candidate text trimmed and
upper-cased whenever that is non-empty, and the sentinel `ERROR` when the
nested path is absent (or yields only whitespace); the caller approves
exactly the decisions containing `YES`; `YES, approved.` is approved, `NO`
is denied, and an empty or unparseable response yields the sentinel, which
is never approved. -/
theorem c6_judge_decision :
    (∀ d s, d ≠ JVal.jnull → candTextChain d = some (.str s) → jsUpper (jsTrim s) ≠ "" →
        judgeDecision d = .ok (jsUpper (jsTrim s)))
    ∧ (∀ d, d ≠ JVal.jnull → candTextChain d = none → judgeDecision d = .ok "ERROR")
    ∧ (∀ s, judgeApproves s = strHas s "YES")
    ∧ judgeDecision (judgeDataOf (.str "YES, approved.")) = .ok "YES, APPROVED."
    ∧ judgeApproves "YES, APPROVED." = true
    ∧ judgeDecision (judgeDataOf (.str "NO")) = .ok "NO"
    ∧ judgeApproves "NO" = false
    ∧ judgeDecision (judgeDataOf (.str "")) = .ok "ERROR"
    ∧ judgeDecision (.obj []) = .ok "ERROR"
    ∧ judgeApproves "ERROR" = false := by
  refine ⟨?_, ?_, fun s => rfl, rfl, rfl, rfl, rfl, rfl, rfl, rfl⟩
  · intro d s hnn hc hne
    cases d <;> simp [judgeDecision, hc, hne] <;> simp at hnn
  · intro d hnn hc
    cases d <;> simp [judgeDecision, hc] <;> simp at hnn

/-- C6, witness: a non-empty reply is trimmed and upper-cased. -/
theorem c6_witness :
    judgeDecision (judgeDataOf (.str " maybe Yes ")) = .ok "MAYBE YES" :=
  c6_judge_decision.1 (judgeDataOf (.str " maybe Yes ")) " maybe Yes " (by simp [judgeDataOf]) rfl (by decide)

/-- C7.  Every successful signing call performed at whole-second time
`now` produces `validAfter = now - 60` and `validBefore = now + 3600`, hence
a window of exactly 3660 seconds with `validAfter < now ≤ validBefore`. -/
theorem c7_validity_window (w : Option String) (sf : TypedDomain → TypedMsg → String)
    (req : JVal) (now : Int) (rnd : List Nat) (o : SignOut)
    (h : signPayment w sf req now rnd = .ok o) :
    o.validAfter = now - 60 ∧ o.validBefore = now + 3600
      ∧ o.validBefore - o.validAfter = 3660 ∧ o.validAfter < now ∧ now ≤ o.validBefore := by
  rcases w with _ | addr
  · simp [signPayment] at h
  · rcases hv : jsBigInt (amountSel req) with _ | v
    · simp [signPayment, hv] at h
    · simp only [signPayment, hv] at h
      cases h
      refine ⟨rfl, rfl, ?_, ?_, ?_⟩
      · show now + 3600 - (now - 60) = 3660
        omega
      · show now - 60 < now
        omega
      · show now ≤ now + 3600
        omega

/-- C7, witness: the window of a concrete successful signing run. -/
theorem c7_witness :
    signOutW.validBefore - signOutW.validAfter = 3660
      ∧ signOutW.validAfter < 1700000000 ∧ (1700000000 : Int) ≤ signOutW.validBefore :=
  (c7_validity_window (some "0xW") sigW req402W 1700000000 (List.replicate 32 0) signOutW
    rfl).2.2

/-- C8, counterexample.  When the extracted terms carry no resource
object, the judge is called with an `undefined` description argument (the
source substitutes an empty object, whose `description` property is
`undefined`), not with the empty string the claim asserts. -/
theorem c8_counterexample :
    (autoRecover hNoKeyW envW errDetW []).1 = [.judgeCall none (some (.str "1000000"))]
      ∧ (none : Option JVal) ≠ some (.str "") :=
  ⟨rfl, by simp⟩

/-- C8, amended.  Every judge consultation receives as description the
`description` property of `reqData.resource || ` the empty object: when a
truthy resource object is present it supplies the description, and when it
is absent the substituted empty object makes the description argument
`undefined` (not the empty string). -/
theorem c8_amended (h : HandlerM) (env : RecEnv) (e : JsErr) (args : List JVal) (reqData : JVal)
    (hex : extract env.jparse e = .ok (some reqData)) :
    (∀ d am, Act.judgeCall d am ∈ (autoRecover h env e args).1 →
        d = getField (jsOrV (getField reqData "resource") (.obj [])) "description")
    ∧ (jsTruthyO (getField reqData "resource") = false →
        getField (jsOrV (getField reqData "resource") (.obj [])) "description" = none)
    ∧ (∀ res, getField reqData "resource" = some res → jsTruthy res = true →
        jsOrV (getField reqData "resource") (.obj []) = res) := by
  refine ⟨?_, ?_, ?_⟩
  · intro d am hm
    rcases hK : h.hasKey with _ | _
    · unfold autoRecover at hm
      split at hm
      · rename_i u heq; rw [hex] at heq; cases heq
      · rename_i heq; rw [hex] at heq; simp at heq
      · rename_i rqd heq
        rw [hex] at heq
        simp only [Except.ok.injEq, Option.some.injEq] at heq
        subst heq
        split at hm
        · simp at hm
        · simp at hm
        · simp only [hK, Bool.false_eq_true, if_false] at hm
          split at hm
          · simp at hm
            exact hm.1
          · split at hm
            · rcases signAndRetry_trace h env _ args _ _ hm with hin | hj
              · simp at hin
                exact hin.1
              · simp [Act.isJudge] at hj
            · simp at hm
              exact hm.1
    · have := autoRecover_hasKey_no_judge h env e args hK (Act.judgeCall d am) hm
      simp [Act.isJudge] at this
  · intro ht
    simp [jsOrV]
    rcases hr : getField reqData "resource" with _ | rv
    · simp [getField, lookupField]
    · rw [hr] at ht
      simp [jsTruthyO] at ht
      simp [ht, getField]
      cases rv <;> simp_all [jsTruthy, getField, lookupField]
  · intro res hr htr
    simp [jsOrV, hr, htr]

/-- C8, witness: extracted terms without a resource object produce an
`undefined` description argument. -/
theorem c8_witness :
    getField (jsOrV (getField (JVal.obj [("accepts", JVal.arr [req402W])]) "resource")
        (.obj [])) "description" = none :=
  (c8_amended hNoKeyW envW errDetW [] (.obj [("accepts", .arr [req402W])]) rfl).2.1 rfl

/-- C10.  The reshaped retry result places the `text()` accessor wrapper
first and spreads the parsed body after it, so: when the body has no
top-level `response` field the result exposes the accessor under `response`
and passes every body field through unchanged; when the body does carry a
`response` field, the spread shadows the wrapper and the accessor is absent;
the accessor itself evaluates to the first-candidate first-part text, or the
empty string when that nested path is absent. -/
theorem c10_retry_shape (fs : List (String × JVal)) :
    (lookLast fs "response" = none →
        lookLast (mkRetryResult (.obj fs)) "response"
          = some (.accessor (textAccess (.obj fs))))
    ∧ (∀ v, lookLast fs "response" = some v →
        lookLast (mkRetryResult (.obj fs)) "response" = some (.native v))
    ∧ (∀ k v, lookLast fs k = some v →
        lookLast (mkRetryResult (.obj fs)) k = some (.native v))
    ∧ (∀ json, json ≠ JVal.jnull → candTextChain json = none →
        textAccess json = .ok (.str ""))
    ∧ (∀ json s, json ≠ JVal.jnull → candTextChain json = some (.str s) → s ≠ "" →
        textAccess json = .ok (.str s)) := by
  have hsome : ∀ k v, lookLast fs k = some v →
      lookLast (mkRetryResult (.obj fs)) k = some (.native v) := by
    intro k v hv
    simp only [mkRetryResult, lookLast, spreadFields, lookLast_map_native fs k, hv, Option.map]
  have hnone : ∀ k, lookLast fs k = none →
      lookLast (mkRetryResult (.obj fs)) k
        = if "response" == k then some (.accessor (textAccess (.obj fs))) else none := by
    intro k hn
    simp only [mkRetryResult, lookLast, spreadFields, lookLast_map_native fs k, hn, Option.map]
  refine ⟨?_, ?_, ?_, ?_, ?_⟩
  · intro hn
    rw [hnone "response" hn]
    simp
  · intro v hv
    exact hsome "response" v hv
  · intro k v hv
    exact hsome k v hv
  · intro json hnn hc
    cases json <;> simp [textAccess, jsOrV, hc] <;> simp at hnn
  · intro json s hnn hc hne
    cases json <;> simp [textAccess, jsOrV, hc, jsTruthy, hne] <;> simp at hnn

/-- C10, witness: a candidates-shaped body keeps the accessor and passes
`candidates` through; a body with its own `response` field shadows the
accessor. -/
theorem c10_witness :
    lookLast (mkRetryResult retryJsonW) "response"
        = some (.accessor (textAccess retryJsonW))
      ∧ lookLast (mkRetryResult retryJsonW) "candidates"
          = some (.native (.arr [.obj [("content", .obj [("parts", .arr [.obj [("text", .str "hello")]])])]]))
      ∧ textAccess retryJsonW = .ok (.str "hello")
      ∧ lookLast (mkRetryResult (.obj [("response", .str "native")])) "response"
          = some (.native (.str "native")) := by
  have h1 := (c10_retry_shape
    [("candidates", .arr [.obj [("content", .obj [("parts", .arr [.obj [("text", JVal.str "hello")]])])]])]).1 rfl
  have h2 := (c10_retry_shape
    [("candidates", .arr [.obj [("content", .obj [("parts", .arr [.obj [("text", JVal.str "hello")]])])]])]).2.2.1
    "candidates" (.arr [.obj [("content", .obj [("parts", .arr [.obj [("text", JVal.str "hello")]])])]]) rfl
  have h3 := (c10_retry_shape
    [("candidates", .arr [.obj [("content", .obj [("parts", .arr [.obj [("text", JVal.str "hello")]])])]])]).2.2.2.2
    retryJsonW "hello" (by simp [retryJsonW, judgeDataOf]) rfl (by simp)
  have h4 := (c10_retry_shape [("response", JVal.str "native")]).2.1 (.str "native") rfl
  exact ⟨h1, h2, h3, h4⟩

set_option maxRecDepth 40000 in
/-- C9, witness: two concrete distinct 32-byte draws give distinct nonces
and distinct envelopes. -/
theorem c9_witness :
    (signPayment (some "0xW") sigW req402W 1700000000 (List.replicate 32 0)).map SignOut.nonce
        ≠ (signPayment (some "0xW") sigW req402W 1700000000 rTwoW).map SignOut.nonce
      ∧ (signPayment (some "0xW") sigW req402W 1700000000 (List.replicate 32 0)).map SignOut.envelope
        ≠ (signPayment (some "0xW") sigW req402W 1700000000 rTwoW).map SignOut.envelope := by
  have h := signPayment_distinct_draws req402W "0xW" sigW 1700000000 1000000
    (List.replicate 32 0) rTwoW rfl (by decide) (by decide) (by decide) (by decide)
    (by decide) (by decide) (by decide)
  exact ⟨h.2.1, h.2.2⟩

end Halo
